import Mathlib

/-!
Shallow embedding of the recurring-task scheduler (`src/automations/scheduler.py`)
and the auto-collection loop (`src/automations/auto_collector.py`) of the
whatsapp-companion-bot repository, together with the persistence gateway's
`save_link` (`src/database/db_handler.py`), and proofs of the behavioural
claims about them.

Python `datetime` values are embedded as calendar records compared
field-lexicographically; `timedelta` arithmetic is carried out on the
calendar fields with exact month/leap-year day counts, matching Python's
(proleptic-Gregorian, overflow-free for the inputs at hand) semantics.
-/

namespace Companion

/-! ## Calendar model (embedding of Python `datetime`, second granularity) -/

/-- A `datetime.datetime` value (microseconds dropped: none of the modelled
code distinguishes sub-second instants, and every branch condition in the
source uses `<=`, so branch choice agrees at second granularity). -/
structure DateTime where
  year : Nat
  month : Nat
  day : Nat
  hour : Nat
  minute : Nat
  second : Nat
deriving DecidableEq, Repr

/-- A `datetime.date` value, as produced by `datetime.now().date()`. -/
structure Date where
  year : Nat
  month : Nat
  day : Nat
deriving DecidableEq, Repr

def DateTime.date (t : DateTime) : Date := ⟨t.year, t.month, t.day⟩

/-- A `datetime.time` value as produced by
`datetime.strptime(s, "%H:%M").time()` (seconds always 0 there). -/
structure TimeOfDay where
  hour : Nat
  minute : Nat
deriving DecidableEq, Repr

/-- `datetime.combine(date, time)`. -/
def combine (d : Date) (t : TimeOfDay) : DateTime :=
  ⟨d.year, d.month, d.day, t.hour, t.minute, 0⟩

/-- Strict comparison of datetimes: field-lexicographic, which is exactly
Python's `<` on (valid) `datetime` values. -/
def dtLt (a b : DateTime) : Prop :=
  a.year < b.year ∨ (a.year = b.year ∧
    (a.month < b.month ∨ (a.month = b.month ∧
      (a.day < b.day ∨ (a.day = b.day ∧
        (a.hour < b.hour ∨ (a.hour = b.hour ∧
          (a.minute < b.minute ∨ (a.minute = b.minute ∧
            a.second < b.second)))))))))

/-- Non-strict comparison of datetimes (Python `<=`). -/
def dtLe (a b : DateTime) : Prop := dtLt a b ∨ a = b

instance (a b : DateTime) : Decidable (dtLt a b) := by
  unfold dtLt; infer_instance

instance (a b : DateTime) : Decidable (dtLe a b) := by
  unfold dtLe; infer_instance

/-- Gregorian leap year, as Python's `calendar`/`datetime` use it. -/
def isLeap (y : Nat) : Bool :=
  (y % 4 == 0 && y % 100 != 0) || (y % 400 == 0)

/-- Days in a Gregorian month. -/
def daysInMonth (y m : Nat) : Nat :=
  if m = 2 then (if isLeap y then 29 else 28)
  else if m = 4 ∨ m = 6 ∨ m = 9 ∨ m = 11 then 30
  else 31

/-- The calendar day after `(y, m, d)`. -/
def nextDate : Nat × Nat × Nat → Nat × Nat × Nat
  | (y, m, d) =>
    if d < daysInMonth y m then (y, m, d + 1)
    else if m < 12 then (y, m + 1, 1)
    else (y + 1, 1, 1)

/-- `k` calendar days after `(y, m, d)`. -/
def dateAddDays : Nat × Nat × Nat → Nat → Nat × Nat × Nat
  | ymd, 0 => ymd
  | ymd, k + 1 => dateAddDays (nextDate ymd) k

/-- Seconds elapsed since the start of the day. -/
def secondsOfDay (t : DateTime) : Nat :=
  t.hour * 3600 + t.minute * 60 + t.second

/-- `dt + timedelta(seconds=k)`: Python's timedelta addition, normalising
seconds into day carries and rolling the calendar date forward. -/
def addSeconds (dt : DateTime) (k : Nat) : DateTime :=
  let total := secondsOfDay dt + k
  let ymd := dateAddDays (dt.year, dt.month, dt.day) (total / 86400)
  ⟨ymd.1, ymd.2.1, ymd.2.2,
    total % 86400 / 3600, total % 86400 % 3600 / 60, total % 86400 % 60⟩

/-- `dt + timedelta(days=k)`. -/
def addDays (dt : DateTime) (k : Nat) : DateTime :=
  let ymd := dateAddDays (dt.year, dt.month, dt.day) k
  ⟨ymd.1, ymd.2.1, ymd.2.2, dt.hour, dt.minute, dt.second⟩

/-- Days from the civil epoch 0000-03-01 to `(y, m, d)` (standard
days-from-civil computation, restricted to `y ≥ 1` which the scheduler's
inputs satisfy). Used only to obtain the weekday. -/
def rataDays (y m d : Nat) : Nat :=
  let y' := if m ≤ 2 then y - 1 else y
  let era := y' / 400
  let yoe := y' - era * 400
  let mp := (m + 9) % 12
  let doy := (153 * mp + 2) / 5 + d - 1
  let doe := yoe * 365 + yoe / 4 - yoe / 100 + doy
  era * 146097 + doe

/-- Python's `datetime.weekday()`: Monday = 0 … Sunday = 6.
(0000-03-01 was a Wednesday; the epoch offset 719468 of 1970-01-01 is
≡ 1 mod 7 and 1970-01-01 was a Thursday, weekday 3, whence the +2.) -/
def weekday (t : DateTime) : Nat :=
  (rataDays t.year t.month t.day + 2) % 7

/-- Strict lexicographic order on calendar dates given as triples. -/
def dateLtT (a b : Nat × Nat × Nat) : Prop :=
  a.1 < b.1 ∨ (a.1 = b.1 ∧ (a.2.1 < b.2.1 ∨ (a.2.1 = b.2.1 ∧ a.2.2 < b.2.2)))

/-! ## Trigger strategy: `Scheduler._calculate_next_run` -/

/-- `TaskType` enumeration from `scheduler.py`. -/
inductive TaskType where
  | collectLinks | autoPost | autoJoin | backup | cleanup | custom
deriving DecidableEq, Repr

/-- `ScheduleFrequency` enumeration from `scheduler.py`. -/
inductive ScheduleFrequency where
  | hourly | daily | weekly | monthly | custom
deriving DecidableEq, Repr

/-- Is `c` an ASCII digit? -/
def isDigitChar (c : Char) : Bool := '0' ≤ c && c ≤ '9'

/-- Numeric value of a digit string (to be used only when all-digit). -/
def digitsToNat (s : List Char) : Nat :=
  s.foldl (fun acc c => acc * 10 + (c.toNat - '0'.toNat)) 0

/-- Python `str.split(sep)` for a one-character separator, on the
character list of the string: every occurrence splits, empty pieces are
kept. -/
def splitCharList (sep : Char) : List Char → List (List Char)
  | [] => [[]]
  | c :: rest =>
    match splitCharList sep rest with
    | [] => if c = sep then [[], []] else [[c]]
    | h :: t => if c = sep then [] :: h :: t else (c :: h) :: t

/-- `datetime.strptime(s, "%H:%M")`: one or two digits for the hour
(0–23), a colon, one or two digits for the minute (0–59); nothing else.
Returns the parsed time-of-day, or `none` when strptime raises. -/
def parseHHMM (s : String) : Option TimeOfDay :=
  match splitCharList ':' s.toList with
  | [hc, mc] =>
    if hc.length ≥ 1 ∧ hc.length ≤ 2 ∧ hc.all isDigitChar ∧
       mc.length ≥ 1 ∧ mc.length ≤ 2 ∧ mc.all isDigitChar ∧
       digitsToNat hc ≤ 23 ∧ digitsToNat mc ≤ 59 then
      some ⟨digitsToNat hc, digitsToNat mc⟩
    else none
  | _ => none

/-- `Scheduler._calculate_next_run`, with the ambient `datetime.now()`
made an explicit argument.  The `except` branch of the source (reached
exactly when `strptime` raises on the schedule string) returns
`now + timedelta(minutes=5)`, as does the final `else` (CUSTOM). -/
def calculateNextRun (freq : ScheduleFrequency) (scheduleTime : String)
    (now : DateTime) : DateTime :=
  match freq with
  | .hourly => addSeconds now 3600
  | .daily =>
    match parseHHMM scheduleTime with
    | some t =>
      let nr := combine now.date t
      if dtLe nr now then addDays nr 1 else nr
    | none => addSeconds now 300
  | .weekly =>
    match parseHHMM scheduleTime with
    | some t => addDays (combine now.date t) (7 - weekday now)
    | none => addSeconds now 300
  | .monthly =>
    match parseHHMM scheduleTime with
    | some t =>
      let nextMonth := if now.month < 12 then now.month + 1 else 1
      let nextYear := if now.month < 12 then now.year else now.year + 1
      ⟨nextYear, nextMonth, 1, t.hour, t.minute, 0⟩
    | none => addSeconds now 300
  | .custom => addSeconds now 300

/-! ## Task registry and executor (`scheduler.py`) -/

/-- The `ScheduledTask` dataclass.  The `config` map and the optional
`callback` are read only through the task handler, which the modelled
operations abstract as its Boolean outcome (`_run_task_handler` catches
every handler exception and converts it to `False`, so a Boolean is its
exact observable behaviour). -/
structure ScheduledTask where
  id : String
  name : String
  taskType : TaskType
  frequency : ScheduleFrequency
  scheduleTime : String
  isActive : Bool := true
  lastRun : Option DateTime := none
  nextRun : Option DateTime := none
  totalRuns : Nat := 0
  successCount : Nat := 0
  failCount : Nat := 0
deriving DecidableEq, Repr

/-- The registry `self.scheduled_tasks`, a Python dict embedded as an
association list (insertion-ordered, unique keys in actual use). -/
abbrev TaskRegistry := List (String × ScheduledTask)

/-- In-place mutation of the entry stored under `tid`. -/
def setTask (tasks : TaskRegistry) (tid : String) (t : ScheduledTask) :
    TaskRegistry :=
  tasks.map (fun p => if p.1 = tid then (tid, t) else p)

/-- Python dict assignment `self.scheduled_tasks[task.id] = task`:
replace when the key exists, append otherwise. -/
def upsertTask (tasks : TaskRegistry) (tid : String) (t : ScheduledTask) :
    TaskRegistry :=
  if (tasks.lookup tid).isSome then setTask tasks tid t else tasks ++ [(tid, t)]

/-- ASCII whitespace as Python `int()` strips it. -/
def isSpaceChar (c : Char) : Bool :=
  c == ' ' || c == '\t' || c == '\n' || c == '\r'

/-- Strip leading and trailing whitespace from a character list. -/
def trimChars (l : List Char) : List Char :=
  ((l.dropWhile isSpaceChar).reverse.dropWhile isSpaceChar).reverse

/-- Python `int(s)` on the pieces `_validate_schedule_time` feeds it:
optional surrounding whitespace, optional sign, then decimal digits
(`none` models the `ValueError` the enclosing `except` catches).
Digit-group underscores, a Python corner never exercised here, are not
modelled. -/
def pyInt (l : List Char) : Option Int :=
  let p : Int × List Char :=
    match trimChars l with
    | '+' :: rest => (1, rest)
    | '-' :: rest => (-1, rest)
    | t => (1, t)
  if p.2 ≠ [] ∧ p.2.all isDigitChar then some (p.1 * digitsToNat p.2) else none

/-- `Scheduler._validate_schedule_time`.  For CUSTOM it returns `True`
unconditionally; otherwise it requires a `':'`, splits on it, converts
exactly two pieces with `int`, and checks `0 <= h < 24 and 0 <= m < 60`;
any raised `ValueError` (wrong piece count, non-numeric piece) is caught
by the wrapping `except` and yields `False`. -/
def validateScheduleTime (scheduleTime : String) (freq : ScheduleFrequency) :
    Bool :=
  if freq = .custom then true
  else if scheduleTime.toList.contains ':' then
    match splitCharList ':' scheduleTime.toList with
    | [hs, ms] =>
      match pyInt hs, pyInt ms with
      | some h, some m => decide (0 ≤ h ∧ h < 24 ∧ 0 ≤ m ∧ m < 60)
      | _, _ => false
    | _ => false
  else false

/-- `Scheduler.schedule_task`: validate, compute the initial next-run,
store the record under its id, and report success.  The internal
`_add_to_scheduler` call swallows its own exceptions (including a
malformed cron expression for CUSTOM) and has no effect on the registry;
the database save is absent in the modelled configuration. -/
def scheduleTask (now : DateTime) (tasks : TaskRegistry)
    (task : ScheduledTask) : TaskRegistry × Bool :=
  if !validateScheduleTime task.scheduleTime task.frequency then (tasks, false)
  else
    let task' := { task with
      nextRun := some (calculateNextRun task.frequency task.scheduleTime now) }
    (upsertTask tasks task.id task', true)

/-- `Scheduler._execute_task` (a timer fire), with the handler outcome
abstracted as `handlerResult` and the ambient `datetime.now()` (used both
for `last_run` and inside the next-run recomputation) as `now`.
`_run_task_handler` cannot raise (it catches everything and returns
`False`), so the inner `except` branch of the source is unreachable and
the counter/next-run updates below are exhaustive. -/
def executeTask (handlerResult : Bool) (now : DateTime)
    (tasks : TaskRegistry) (tid : String) : TaskRegistry :=
  match tasks.lookup tid with
  | none => tasks
  | some task =>
    if !task.isActive then tasks
    else
      let t1 := { task with lastRun := some now, totalRuns := task.totalRuns + 1 }
      let t2 := if handlerResult
        then { t1 with successCount := t1.successCount + 1 }
        else { t1 with failCount := t1.failCount + 1 }
      let t3 := { t2 with
        nextRun := some (calculateNextRun task.frequency task.scheduleTime now) }
      setTask tasks tid t3

/-- `Scheduler.run_task_now`: executes the handler immediately and bumps
`success_count` or `fail_count`; it touches neither `total_runs` nor
`last_run` nor `next_run`. -/
def runTaskNow (handlerResult : Bool) (tasks : TaskRegistry) (tid : String) :
    TaskRegistry × Bool :=
  match tasks.lookup tid with
  | none => (tasks, false)
  | some task =>
    let t' := if handlerResult
      then { task with successCount := task.successCount + 1 }
      else { task with failCount := task.failCount + 1 }
    (setTask tasks tid t', handlerResult)

/-- The `success_count + fail_count ≤ total_runs` invariant from the
specification's data model. -/
def counterInvariant (t : ScheduledTask) : Prop :=
  t.successCount + t.failCount ≤ t.totalRuns

/-- Per-task `success_rate` as computed inside `Scheduler.get_tasks`:
`(success_count / total_runs * 100) if total_runs > 0 else 0`. -/
def taskSuccessRate (t : ScheduledTask) : ℚ :=
  if t.totalRuns > 0 then (t.successCount : ℚ) / (t.totalRuns : ℚ) * 100 else 0

/-- `sum(t.total_runs for t in ...)` in `get_scheduler_stats`. -/
def totalRunsOf (tasks : TaskRegistry) : Nat :=
  (tasks.map (fun p => p.2.totalRuns)).sum

/-- `sum(t.success_count for t in ...)` in `get_scheduler_stats`. -/
def totalSuccessOf (tasks : TaskRegistry) : Nat :=
  (tasks.map (fun p => p.2.successCount)).sum

/-- Aggregate `success_rate` as computed in `Scheduler.get_scheduler_stats`:
`(total_success / total_runs * 100) if total_runs > 0 else 0`. -/
def schedulerSuccessRate (tasks : TaskRegistry) : ℚ :=
  if totalRunsOf tasks > 0
  then (totalSuccessOf tasks : ℚ) / (totalRunsOf tasks : ℚ) * 100
  else 0

/-! ## Persistence gateway: `Database.save_link` (`db_handler.py`) -/

/-- `Database.save_link`, restricted to its observable effect on the
per-session URL store.  It returns `False` only when the session row is
missing (or the transaction raises); when the URL already exists for the
session it merely refreshes `found_at`/`found_in` on the existing row and
**still returns `True`** — the return value means "saved or updated",
not "newly inserted". -/
def saveLink (sessionOk : Bool) (db : List String) (url : String) :
    List String × Bool :=
  if !sessionOk then (db, false)
  else if db.contains url then (db, true)
  else (url :: db, true)

/-! ## Collection engine (`auto_collector.py`) -/

/-- One WhatsApp message as `_process_group_messages` reads it
(`message.get('body'/'id'/'sender')`). -/
structure Message where
  body : String
  msgId : String
  sender : String
deriving DecidableEq, Repr

/-- The portion of `AutoCollector` state that one
`_process_group_messages` call reads and writes: the session dedup set
`collected_urls`, the gateway's per-session URL store, and whether the
gateway can resolve the session. -/
structure PassState where
  collectedUrls : List String
  db : List String
  sessionOk : Bool
deriving DecidableEq, Repr

/-- The body of the inner `for link in all_links` loop of
`_process_group_messages`: skip fingerprints already in the dedup set,
otherwise persist via `save_link` and, on a `True` return, count the
link and add its fingerprint. -/
def processLink (acc : PassState × Nat) (link : String) : PassState × Nat :=
  let s := acc.1
  if s.collectedUrls.contains link then acc
  else
    let r := saveLink s.sessionOk s.db link
    if r.2 then
      ({ s with db := r.1, collectedUrls := link :: s.collectedUrls }, acc.2 + 1)
    else acc

/-- `AutoCollector._process_group_messages`, with link extraction
(`LinkScraper.extract_links`, whose module is absent from the sources)
abstracted as the function `extract`; messages with an empty body are
skipped, and the per-message `except: continue` is unreachable in the
modelled fragment. Returns the updated state and the pass's new-link
count `links_collected`. -/
def processGroupMessages (extract : String → List String)
    (messages : List Message) (s : PassState) : PassState × Nat :=
  messages.foldl
    (fun acc msg =>
      if msg.body = "" then acc
      else (extract msg.body).foldl processLink acc)
    (s, 0)

/-- One target group as `group_manager.get_all_groups` yields it. -/
structure Group where
  gid : String
  name : String
deriving DecidableEq, Repr

/-- Seconds from the civil epoch to `t`; differences of these are
`(a - b).total_seconds()` on `datetime` values. -/
def absSeconds (t : DateTime) : Nat :=
  rataDays t.year t.month t.day * 86400 + secondsOfDay t

/-- The mutable engine state touched by `_collect_from_all_groups`. -/
structure EngineState where
  collectedUrls : List String
  db : List String
  sessionOk : Bool
  lastGroupCheck : List (String × DateTime)
  totalLinks : Nat
deriving DecidableEq, Repr

/-- Python dict assignment `self.last_group_check[group_id] = now`. -/
def upsertCheck (checks : List (String × DateTime)) (gid : String)
    (now : DateTime) : List (String × DateTime) :=
  if (checks.lookup gid).isSome
  then checks.map (fun p => if p.1 = gid then (gid, now) else p)
  else checks ++ [(gid, now)]

/-- The body of the `for group in groups` loop of
`_collect_from_all_groups`.  `fetch` abstracts the message fetch for one
group: `none` models a per-target exception (caught by the per-group
`except`, which logs and `continue`s without touching the state — in
particular without updating `last_group_check`); `some msgs` is a
successful fetch, after which the messages are processed and the
target's last-checked timestamp is set. -/
def processGroup (extract : String → List String)
    (fetch : String → Option (List Message)) (now : DateTime)
    (acc : EngineState × Nat) (g : Group) : EngineState × Nat :=
  let s := acc.1
  let recentlyChecked :=
    match s.lastGroupCheck.lookup g.gid with
    | some last => decide ((absSeconds now : Int) - absSeconds last < 3600)
    | none => false
  if recentlyChecked then acc
  else
    match fetch g.gid with
    | none => acc
    | some msgs =>
      let r := processGroupMessages extract msgs
        ⟨s.collectedUrls, s.db, s.sessionOk⟩
      ({ s with collectedUrls := r.1.collectedUrls, db := r.1.db,
                lastGroupCheck := upsertCheck s.lastGroupCheck g.gid now },
       acc.2 + r.2)

/-- `AutoCollector._collect_from_all_groups` (with `is_collecting` held
true throughout, i.e. no stop request during the pass): enumerate the
targets, process each, then add the pass's new-link total to
`collection_stats['total_links']`. -/
def collectFromAllGroups (extract : String → List String)
    (fetch : String → Option (List Message)) (now : DateTime)
    (groups : List Group) (st : EngineState) : EngineState :=
  if groups = [] then st
  else
    let r := groups.foldl (processGroup extract fetch now) (st, 0)
    { r.1 with totalLinks := r.1.totalLinks + r.2 }

/-- The WEEKLY next-run as claim C5 words it, for comparison with
`calculateNextRun`: the schedule's time-of-day advanced to the anchor's
weekday — the only weekday datum available to the strategy is `now`'s,
so the candidate is `now`'s date at the schedule time — and, when that
candidate is not strictly after `now`, exactly one week later. -/
def weeklyNextRunSpec (t : TimeOfDay) (now : DateTime) : DateTime :=
  let candidate := combine now.date t
  if dtLt now candidate then candidate else addDays candidate 7

/-- A registered task with fresh counters, used to instantiate the
registry-level theorems. -/
def sampleTask : ScheduledTask :=
  { id := "t1", name := "daily backup", taskType := .backup,
    frequency := .daily, scheduleTime := "02:00" }

/-- A CUSTOM-frequency task whose schedule string is not a cron
expression. -/
def cronTask : ScheduledTask :=
  { id := "c6", name := "cron job", taskType := .custom,
    frequency := .custom, scheduleTime := "definitely not a cron" }

/-- A DAILY task with an out-of-range schedule time. -/
def badTask : ScheduledTask :=
  { id := "t2", name := "bad schedule", taskType := .backup,
    frequency := .daily, scheduleTime := "25:00" }

/-- The daily-quota slice of `collection_stats`:
`collections_today` and `last_collection_date`. -/
structure DailyQuota where
  collectionsToday : Nat
  lastCollectionDate : Option Date
deriving DecidableEq, Repr

/-- `AutoCollector._reset_daily_counter_if_needed`: on the first use
after a day boundary (`last_collection_date != today`, which includes
the initially-absent key) zero the counter and stamp today's date. -/
def resetDailyCounterIfNeeded (today : Date) (q : DailyQuota) : DailyQuota :=
  if q.lastCollectionDate ≠ some today
  then { collectionsToday := 0, lastCollectionDate := some today }
  else q

/-- One iteration of the `while self.is_collecting` body of
`AutoCollector._collection_loop`, projected onto the daily quota: reset
the counter if the day changed; if `collections_today >= 50` sleep the
one-hour cool-down and `continue` (no pass, counter untouched);
otherwise run a collection pass and increment the counter.  The returned
Boolean records whether a collection pass executed. -/
def collectionLoopIter (today : Date) (q : DailyQuota) : DailyQuota × Bool :=
  let q1 := resetDailyCounterIfNeeded today q
  if q1.collectionsToday ≥ 50 then (q1, false)
  else ({ q1 with collectionsToday := q1.collectionsToday + 1 }, true)

/-- The quota state after one loop iteration (for iterating the loop). -/
def collectionLoopStep (today : Date) (q : DailyQuota) : DailyQuota :=
  (collectionLoopIter today q).1

/-! ## Ordering lemmas for the calendar model -/

lemma dateLtT_trans {a b c : Nat × Nat × Nat}
    (hab : dateLtT a b) (hbc : dateLtT b c) : dateLtT a c := by
  obtain ⟨a1, a2, a3⟩ := a
  obtain ⟨b1, b2, b3⟩ := b
  obtain ⟨c1, c2, c3⟩ := c
  simp only [dateLtT] at *
  omega

lemma dateLtT_nextDate (a : Nat × Nat × Nat) : dateLtT a (nextDate a) := by
  obtain ⟨y, m, d⟩ := a
  simp only [nextDate, dateLtT]
  split
  · simp
  · split <;> simp

lemma dateLtT_dateAddDays (k : Nat) (a : Nat × Nat × Nat) :
    dateLtT a (dateAddDays a (k + 1)) := by
  induction k generalizing a with
  | zero => exact dateLtT_nextDate a
  | succ k ih =>
    have h1 : dateAddDays a (k + 2) = dateAddDays (nextDate a) (k + 1) := rfl
    rw [h1]
    exact dateLtT_trans (dateLtT_nextDate a) (ih (nextDate a))

lemma dtLt_of_dateLtT {y m d : Nat} (h1 m1 s1 : Nat) (p : Nat × Nat × Nat)
    (h2 m2 s2 : Nat) (hp : dateLtT (y, m, d) p) :
    dtLt ⟨y, m, d, h1, m1, s1⟩ ⟨p.1, p.2.1, p.2.2, h2, m2, s2⟩ := by
  obtain ⟨p1, p2, p3⟩ := p
  simp only [dateLtT] at hp
  simp only [dtLt]
  omega

lemma dtLt_addSeconds (dt : DateTime) (k : Nat) (hk : 0 < k) :
    dtLt dt (addSeconds dt k) := by
  obtain ⟨y, m, d, hh, mi, s⟩ := dt
  simp only [addSeconds, secondsOfDay]
  rcases Nat.eq_zero_or_pos ((hh * 3600 + mi * 60 + s + k) / 86400) with h0 | hpos
  · rw [h0]
    have h1 : (hh * 3600 + mi * 60 + s + k) % 86400 =
        hh * 3600 + mi * 60 + s + k := by omega
    simp only [dateAddDays, dtLt]
    rw [h1]
    have e2 : (hh * 3600 + mi * 60 + s + k) / 3600 =
        hh + (mi * 60 + s + k) / 3600 := by omega
    have e3 : (hh * 3600 + mi * 60 + s + k) % 3600 =
        (mi * 60 + s + k) % 3600 := by omega
    have e7 : (hh * 3600 + mi * 60 + s + k) % 60 = (s + k) % 60 := by omega
    have e6 : (mi * 60 + s + k) % 3600 / 60 = mi + (s + k) / 60 ∨
        mi * 60 + s + k ≥ 3600 := by omega
    rw [e2, e3, e7]
    simp only [true_and]
    omega
  · obtain ⟨k', hk'⟩ : ∃ j, (hh * 3600 + mi * 60 + s + k) / 86400 = j + 1 :=
      ⟨(hh * 3600 + mi * 60 + s + k) / 86400 - 1, by omega⟩
    rw [hk']
    exact dtLt_of_dateLtT _ _ _ _ _ _ _ (dateLtT_dateAddDays k' (y, m, d))

lemma dtLt_addDays (dt : DateTime) (k : Nat) :
    dtLt dt (addDays dt (k + 1)) := by
  obtain ⟨y, m, d, hh, mi, s⟩ := dt
  simp only [addDays]
  exact dtLt_of_dateLtT _ _ _ _ _ _ _ (dateLtT_dateAddDays k (y, m, d))

lemma weekday_lt (t : DateTime) : weekday t < 7 :=
  Nat.mod_lt _ (by omega)

lemma dtLt_of_not_dtLe {a b : DateTime} (h : ¬ dtLe a b) : dtLt b a := by
  obtain ⟨a1, a2, a3, a4, a5, a6⟩ := a
  obtain ⟨b1, b2, b3, b4, b5, b6⟩ := b
  simp only [dtLe, dtLt, DateTime.mk.injEq] at h ⊢
  omega

/-! ## Claim C1 -/

/-- Claim C1: For every supported frequency kind (hourly, daily, weekly,
monthly, custom) and every schedule-spec (in particular every
syntactically valid one), the next-run instant computed by
`Scheduler._calculate_next_run` at instant `now` is strictly greater
than `now`. -/
theorem c1_next_run_strictly_after (freq : ScheduleFrequency)
    (scheduleTime : String) (now : DateTime) :
    dtLt now (calculateNextRun freq scheduleTime now) := by
  obtain ⟨y, m, d, hh, mi, s⟩ := now
  cases freq with
  | hourly => exact dtLt_addSeconds _ 3600 (by omega)
  | daily =>
    simp only [calculateNextRun]
    cases parseHHMM scheduleTime with
    | none => exact dtLt_addSeconds _ 300 (by omega)
    | some t =>
      simp only [combine, DateTime.date]
      split
      · simp only [addDays]
        exact dtLt_of_dateLtT _ _ _ _ _ _ _ (dateLtT_dateAddDays 0 (y, m, d))
      · exact dtLt_of_not_dtLe (by assumption)
  | weekly =>
    simp only [calculateNextRun]
    cases parseHHMM scheduleTime with
    | none => exact dtLt_addSeconds _ 300 (by omega)
    | some t =>
      have hw := weekday_lt ⟨y, m, d, hh, mi, s⟩
      obtain ⟨j, hj⟩ : ∃ j, 7 - weekday ⟨y, m, d, hh, mi, s⟩ = j + 1 :=
        ⟨6 - weekday ⟨y, m, d, hh, mi, s⟩, by omega⟩
      simp only [combine, DateTime.date, addDays, hj]
      exact dtLt_of_dateLtT _ _ _ _ _ _ _ (dateLtT_dateAddDays j (y, m, d))
  | monthly =>
    simp only [calculateNextRun]
    cases parseHHMM scheduleTime with
    | none => exact dtLt_addSeconds _ 300 (by omega)
    | some t =>
      simp only [dtLt]
      by_cases hm : m < 12 <;> simp [hm]
  | custom => exact dtLt_addSeconds _ 300 (by omega)

/-! ## Further order lemmas and registry lemmas -/

lemma not_dtLt_of_dtLe {a b : DateTime} (h : dtLe a b) : ¬ dtLt b a := by
  obtain ⟨a1, a2, a3, a4, a5, a6⟩ := a
  obtain ⟨b1, b2, b3, b4, b5, b6⟩ := b
  simp only [dtLe, dtLt, DateTime.mk.injEq] at h ⊢
  omega

lemma dtLe_of_not_dtLt {a b : DateTime} (h : ¬ dtLt a b) : dtLe b a := by
  obtain ⟨a1, a2, a3, a4, a5, a6⟩ := a
  obtain ⟨b1, b2, b3, b4, b5, b6⟩ := b
  simp only [dtLe, dtLt, DateTime.mk.injEq] at h ⊢
  omega

lemma lookup_setTask (tasks : TaskRegistry) (tid : String)
    (t task : ScheduledTask) (h : tasks.lookup tid = some task) :
    (setTask tasks tid t).lookup tid = some t := by
  induction tasks with
  | nil => simp [List.lookup] at h
  | cons p rest ih =>
    obtain ⟨k, v⟩ := p
    simp only [setTask, List.map_cons]
    by_cases hk : k = tid
    · subst hk
      rw [if_pos rfl]
      simp [List.lookup]
    · have hne : (tid == k) = false := by
        simp only [beq_eq_false_iff_ne]
        exact fun he => hk he.symm
      rw [if_neg (by simpa using hk)]
      simp only [List.lookup, hne] at h ⊢
      exact ih h

/-! ## Claim C4 -/

/-- Claim C4: For a DAILY task the trigger strategy parses the schedule-spec
as a time-of-day and returns that time-of-day on the current date when it
is strictly after `now`, else on the following date. -/
theorem c4_daily_next_run (now : DateTime) (scheduleTime : String)
    (t : TimeOfDay) (hp : parseHHMM scheduleTime = some t) :
    (dtLt now (combine now.date t) →
      calculateNextRun .daily scheduleTime now = combine now.date t) ∧
    (¬ dtLt now (combine now.date t) →
      calculateNextRun .daily scheduleTime now = addDays (combine now.date t) 1) := by
  constructor <;> intro h <;> simp only [calculateNextRun, hp]
  · rw [if_neg]
    exact fun hle => not_dtLt_of_dtLe hle h
  · exact if_pos (dtLe_of_not_dtLt h)

/-- Witness for C4, the spec's own scenario: schedule-spec `"02:00"` at
now = 2024-01-01T03:00:00 yields 2024-01-02T02:00:00. -/
theorem c4_daily_next_run_witness :
    calculateNextRun .daily "02:00" ⟨2024, 1, 1, 3, 0, 0⟩ =
      ⟨2024, 1, 2, 2, 0, 0⟩ := by
  have h := (c4_daily_next_run ⟨2024, 1, 1, 3, 0, 0⟩ "02:00" ⟨2, 0⟩ rfl).2
  rw [h (by decide)]
  rfl

/-! ## Claim C5 -/

/-- Claim C5 fails on the code: at now = 2024-01-02T03:00:00 (a Tuesday,
weekday 1) with schedule `"04:00"`, the claim's value (the time-of-day on
the anchor weekday, unadvanced because 04:00 is strictly after now) is
Tuesday 2024-01-02T04:00:00, but `_calculate_next_run` returns
2024-01-08T04:00:00 — a Monday, on a different weekday than every
instant the claim can describe for this input. -/
theorem c5_counterexample :
    calculateNextRun .weekly "04:00" ⟨2024, 1, 2, 3, 0, 0⟩ =
      ⟨2024, 1, 8, 4, 0, 0⟩ ∧
    weeklyNextRunSpec ⟨4, 0⟩ ⟨2024, 1, 2, 3, 0, 0⟩ =
      ⟨2024, 1, 2, 4, 0, 0⟩ ∧
    (⟨2024, 1, 8, 4, 0, 0⟩ : DateTime) ≠ ⟨2024, 1, 2, 4, 0, 0⟩ ∧
    weekday ⟨2024, 1, 2, 3, 0, 0⟩ = 1 ∧
    weekday ⟨2024, 1, 8, 4, 0, 0⟩ = 0 :=
  ⟨by decide, by decide, by decide, by decide, by decide⟩

/-- Claim C5 amended: For a WEEKLY task with a well-formed time-of-day
spec, the strategy unconditionally returns the schedule's time-of-day
placed `7 − now.weekday()` days after `now`'s date — between one and
seven days ahead, with no strictly-after check and no anchor weekday —
and the result is strictly after `now`. -/
theorem c5_weekly_next_run (now : DateTime) (scheduleTime : String)
    (t : TimeOfDay) (hp : parseHHMM scheduleTime = some t) :
    calculateNextRun .weekly scheduleTime now =
      addDays (combine now.date t) (7 - weekday now) ∧
    1 ≤ 7 - weekday now ∧ 7 - weekday now ≤ 7 ∧
    dtLt now (calculateNextRun .weekly scheduleTime now) := by
  have hw := weekday_lt now
  refine ⟨by simp [calculateNextRun, hp], by omega, by omega, ?_⟩
  obtain ⟨y, m, d, hh, mi, s⟩ := now
  simp only [calculateNextRun, hp]
  have hw' := weekday_lt ⟨y, m, d, hh, mi, s⟩
  obtain ⟨j, hj⟩ : ∃ j, 7 - weekday ⟨y, m, d, hh, mi, s⟩ = j + 1 :=
    ⟨6 - weekday ⟨y, m, d, hh, mi, s⟩, by omega⟩
  simp only [combine, DateTime.date, addDays, hj]
  exact dtLt_of_dateLtT _ _ _ _ _ _ _ (dateLtT_dateAddDays j (y, m, d))

/-- Witness for the amended C5 at the counterexample's input. -/
theorem c5_weekly_next_run_witness :
    calculateNextRun .weekly "04:00" ⟨2024, 1, 2, 3, 0, 0⟩ =
      addDays (combine (DateTime.date ⟨2024, 1, 2, 3, 0, 0⟩) ⟨4, 0⟩)
        (7 - weekday ⟨2024, 1, 2, 3, 0, 0⟩) ∧
    1 ≤ 7 - weekday ⟨2024, 1, 2, 3, 0, 0⟩ ∧
    7 - weekday ⟨2024, 1, 2, 3, 0, 0⟩ ≤ 7 ∧
    dtLt ⟨2024, 1, 2, 3, 0, 0⟩
      (calculateNextRun .weekly "04:00" ⟨2024, 1, 2, 3, 0, 0⟩) :=
  c5_weekly_next_run ⟨2024, 1, 2, 3, 0, 0⟩ "04:00" ⟨4, 0⟩ rfl

/-! ## Claim C3 -/

/-- Claim C3: After a scheduled fire of an active, registered task,
`next_run` is recomputed unconditionally: whatever Boolean the handler
run produced (success or failure), the stored task's `next_run` is the
freshly computed trigger value (and `total_runs`/`last_run` were
updated). -/
theorem c3_next_run_recomputed (handlerResult : Bool) (now : DateTime)
    (tasks : TaskRegistry) (tid : String) (task : ScheduledTask)
    (hl : tasks.lookup tid = some task) (ha : task.isActive = true) :
    ∃ t', (executeTask handlerResult now tasks tid).lookup tid = some t' ∧
      t'.nextRun =
        some (calculateNextRun task.frequency task.scheduleTime now) ∧
      t'.totalRuns = task.totalRuns + 1 ∧ t'.lastRun = some now := by
  unfold executeTask
  rw [hl]
  simp only [ha, Bool.not_true, Bool.false_eq_true, if_false]
  cases handlerResult <;>
    exact ⟨_, lookup_setTask tasks tid _ task hl, rfl, rfl, rfl⟩

/-- Witness for C3: a concrete fire of an active task on the failure
path still stores a recomputed `next_run`. -/
theorem c3_next_run_recomputed_witness :
    ∃ t', (executeTask false ⟨2024, 1, 1, 3, 0, 0⟩ [("t1", sampleTask)]
        "t1").lookup "t1" = some t' ∧
      t'.nextRun = some (calculateNextRun sampleTask.frequency
        sampleTask.scheduleTime ⟨2024, 1, 1, 3, 0, 0⟩) ∧
      t'.totalRuns = sampleTask.totalRuns + 1 ∧
      t'.lastRun = some ⟨2024, 1, 1, 3, 0, 0⟩ :=
  c3_next_run_recomputed false ⟨2024, 1, 1, 3, 0, 0⟩ [("t1", sampleTask)]
    "t1" sampleTask rfl rfl

/-! ## Claim C2 -/

/-- Claim C2 fails on the code: starting from a freshly registered task with
all counters zero, a single `run_task_now` leaves the stored task with
`success_count + fail_count = 1` but `total_runs = 0` — `run_task_now`
bumps the success/fail counters without ever incrementing `total_runs`,
so the claimed invariant is violated right after the operation. -/
theorem c2_counterexample :
    (runTaskNow true [("t1", sampleTask)] "t1").1.lookup "t1" =
      some { sampleTask with successCount := 1 } ∧
    ¬ counterInvariant { sampleTask with successCount := 1 } :=
  ⟨rfl, by unfold counterInvariant; decide⟩

/-- Claim C2 amended: `success_count + fail_count ≤ total_runs` is
preserved by every scheduled fire (`_execute_task` adds one to
`total_runs` and one to exactly one of the other two counters, or leaves
everything unchanged for a missing/inactive task); `run_task_now`
leaves `total_runs` and the timer's `next_run` untouched while adding
exactly one to `success_count + fail_count`, so it can break the
invariant (it guarantees only the run-now-adjusted bound). -/
theorem c2_counters (handlerResult : Bool) (now : DateTime)
    (tasks : TaskRegistry) (tid : String) (task : ScheduledTask)
    (hl : tasks.lookup tid = some task) (hinv : counterInvariant task) :
    (∃ t', (executeTask handlerResult now tasks tid).lookup tid = some t' ∧
      counterInvariant t') ∧
    (∃ t', (runTaskNow handlerResult tasks tid).1.lookup tid = some t' ∧
      t'.totalRuns = task.totalRuns ∧ t'.nextRun = task.nextRun ∧
      t'.successCount + t'.failCount =
        task.successCount + task.failCount + 1) := by
  constructor
  · unfold executeTask
    rw [hl]
    by_cases ha : task.isActive
    · simp only [ha, Bool.not_true, Bool.false_eq_true, if_false]
      cases handlerResult
      all_goals
        refine ⟨_, lookup_setTask tasks tid _ task hl, ?_⟩
        unfold counterInvariant at hinv ⊢
        simp only [Bool.false_eq_true, if_false, if_true]
        omega
    · simp only [Bool.not_eq_true] at ha
      simp only [ha, Bool.not_false, if_true]
      exact ⟨task, hl, hinv⟩
  · unfold runTaskNow
    rw [hl]
    cases handlerResult
    all_goals
      refine ⟨_, lookup_setTask tasks tid _ task hl, rfl, rfl, ?_⟩
      simp only [Bool.false_eq_true, if_false, if_true]
      omega

/-- Witness for the amended C2 at a concrete registry. -/
theorem c2_counters_witness :
    (∃ t', (executeTask true ⟨2024, 1, 1, 3, 0, 0⟩ [("t1", sampleTask)]
        "t1").lookup "t1" = some t' ∧ counterInvariant t') ∧
    (∃ t', (runTaskNow true [("t1", sampleTask)] "t1").1.lookup "t1" =
        some t' ∧
      t'.totalRuns = sampleTask.totalRuns ∧
      t'.nextRun = sampleTask.nextRun ∧
      t'.successCount + t'.failCount =
        sampleTask.successCount + sampleTask.failCount + 1) :=
  c2_counters true ⟨2024, 1, 1, 3, 0, 0⟩ [("t1", sampleTask)] "t1"
    sampleTask rfl (by unfold counterInvariant; decide)

/-! ## Claim C6 -/

/-- Claim C6 fails on the code for the custom kind:
`_validate_schedule_time` returns `True` for CUSTOM without looking at
the string, so a malformed cron-like expression passes validation and
`schedule_task` accepts the task into the registry (storing it with the
5-minute-fallback next-run; the cron error raised later inside
`_add_to_scheduler` is swallowed there). -/
theorem c6_counterexample :
    validateScheduleTime "definitely not a cron" .custom = true ∧
    (scheduleTask ⟨2024, 1, 1, 3, 0, 0⟩ [] cronTask).2 = true ∧
    (scheduleTask ⟨2024, 1, 1, 3, 0, 0⟩ [] cronTask).1.lookup "c6" =
      some { cronTask with nextRun := some ⟨2024, 1, 1, 3, 5, 0⟩ } :=
  ⟨rfl, rfl, rfl⟩

/-- Claim C6 amended: At validation time, for the non-custom kinds
(hourly, daily, weekly, monthly) a schedule-spec that does not pass the
H:MM shape check is rejected: `schedule_task` returns failure and the
registry is unchanged.  For the custom kind validation accepts every
schedule-spec — a malformed cron expression is not detected at
validation time and the task is still accepted into the registry. -/
theorem c6_validation (now : DateTime) (tasks : TaskRegistry)
    (task : ScheduledTask) (s : String)
    (_hf : task.frequency ≠ .custom)
    (hv : validateScheduleTime task.scheduleTime task.frequency = false) :
    scheduleTask now tasks task = (tasks, false) ∧
    validateScheduleTime s .custom = true := by
  constructor
  · unfold scheduleTask
    rw [hv]
    simp
  · unfold validateScheduleTime
    simp

/-- Witness for the amended C6: `"25:00"` is rejected for a DAILY task
(registry untouched, failure returned) while an arbitrary string passes
validation for a CUSTOM task. -/
theorem c6_validation_witness :
    scheduleTask ⟨2024, 1, 1, 3, 0, 0⟩ [] badTask = ([], false) ∧
    validateScheduleTime "*/not-cron" .custom = true :=
  c6_validation ⟨2024, 1, 1, 3, 0, 0⟩ [] badTask "*/not-cron"
    (by decide) rfl

/-! ## Claim C7 -/

/-- Claim C7 fails on the code in its gateway clause: `save_link` returns
`True` both for a genuinely new insert and for a URL that already exists
for the session (it merely refreshes the existing row), so when a URL
that is already persisted but not yet in the in-memory dedup set is
discovered, the collector counts it as a new link and adds its
fingerprint even though nothing was newly inserted (the store is
unchanged). -/
theorem c7_counterexample :
    saveLink true ["http://example.com/x"] "http://example.com/x" =
      (["http://example.com/x"], true) ∧
    processGroupMessages (fun b => [b])
      [⟨"http://example.com/x", "m1", "alice"⟩]
      ⟨[], ["http://example.com/x"], true⟩ =
      (⟨["http://example.com/x"], ["http://example.com/x"], true⟩, 1) :=
  ⟨rfl, rfl⟩

/-- Claim C7 amended: Within one collection pass, the same URL discovered
twice (in one or two messages) yields exactly one counted link and the
dedup set gains exactly one member, with at most one store insertion;
the fingerprint is added exactly when `save_link` reports success —
which covers both newly inserted and already-persisted URLs — and when
the gateway call fails (unknown session) neither the fingerprint nor the
count changes. -/
theorem c7_dedup (extract : String → List String) (u : String)
    (m1 m2 : Message) (s : PassState)
    (h1 : extract m1.body = [u]) (h2 : extract m2.body = [u])
    (hb1 : ¬ m1.body = "") (hb2 : ¬ m2.body = "")
    (hc : s.collectedUrls.contains u = false)
    (hs : s.sessionOk = true) :
    processGroupMessages extract [m1, m2] s =
      ({ s with collectedUrls := u :: s.collectedUrls,
                db := if s.db.contains u then s.db else u :: s.db }, 1) ∧
    processGroupMessages extract [m1, m2] { s with sessionOk := false } =
      ({ s with sessionOk := false }, 0) := by
  obtain ⟨cu, db, so⟩ := s
  simp only at hc hs
  subst hs
  have hcu : u ∉ cu := by simpa using hc
  constructor
  · by_cases hdb : u ∈ db
    · simp [processGroupMessages, List.foldl, hb1, hb2, h1, h2,
        processLink, saveLink, hcu, hdb]
    · simp [processGroupMessages, List.foldl, hb1, hb2, h1, h2,
        processLink, saveLink, hcu, hdb]
  · simp [processGroupMessages, List.foldl, hb1, hb2, h1, h2,
      processLink, saveLink, hcu]

/-- Witness for the amended C7, the spec's own scenario: two messages
both containing `http://example.com/x` in one pass. -/
theorem c7_dedup_witness :
    processGroupMessages (fun b => [b])
      [⟨"http://example.com/x", "m1", "alice"⟩,
       ⟨"http://example.com/x", "m2", "bob"⟩]
      ⟨[], [], true⟩ =
      (⟨["http://example.com/x"],
        if ([] : List String).contains "http://example.com/x" then []
        else ["http://example.com/x"], true⟩, 1) ∧
    processGroupMessages (fun b => [b])
      [⟨"http://example.com/x", "m1", "alice"⟩,
       ⟨"http://example.com/x", "m2", "bob"⟩]
      ⟨[], [], false⟩ =
      (⟨[], [], false⟩, 0) :=
  c7_dedup (fun b => [b]) "http://example.com/x"
    ⟨"http://example.com/x", "m1", "alice"⟩
    ⟨"http://example.com/x", "m2", "bob"⟩
    ⟨[], [], true⟩ rfl rfl (by decide) (by decide) rfl rfl

/-! ## Claim C8 -/

/-- Claim C8: Once `collections_today` has reached the cap of 50 for the
stored (current) date, a loop iteration takes the cool-down branch: no
collection pass runs and the counter is unchanged — and this persists
over any number of iterations while the date is unchanged.  As soon as
the stored date differs from the current date, the counter is reset to
zero on first use, the pass runs again, and the counter becomes 1. -/
theorem c8_daily_cap (today : Date) (q : DailyQuota) :
    (q.lastCollectionDate = some today → q.collectionsToday ≥ 50 →
      collectionLoopIter today q = (q, false) ∧
      ∀ n, (collectionLoopStep today)^[n] q = q) ∧
    (q.lastCollectionDate ≠ some today →
      collectionLoopIter today q = (⟨1, some today⟩, true)) := by
  constructor
  · intro hd hc
    have hreset : resetDailyCounterIfNeeded today q = q := by
      unfold resetDailyCounterIfNeeded
      rw [if_neg]
      simp [hd]
    have hiter : collectionLoopIter today q = (q, false) := by
      unfold collectionLoopIter
      rw [hreset, if_pos hc]
    refine ⟨hiter, fun n => Function.iterate_fixed ?_ n⟩
    unfold collectionLoopStep
    rw [hiter]
  · intro hd
    have hreset : resetDailyCounterIfNeeded today q =
        { collectionsToday := 0, lastCollectionDate := some today } := by
      unfold resetDailyCounterIfNeeded
      rw [if_pos hd]
    unfold collectionLoopIter
    rw [hreset]
    rfl

/-- Witness for C8: a capped quota on 2024-01-01 cools down and stays
fixed across iterations; on 2024-01-02 the counter resets and a pass
runs. -/
theorem c8_daily_cap_witness :
    collectionLoopIter ⟨2024, 1, 1⟩ ⟨50, some ⟨2024, 1, 1⟩⟩ =
      (⟨50, some ⟨2024, 1, 1⟩⟩, false) ∧
    (collectionLoopStep ⟨2024, 1, 1⟩)^[3] ⟨50, some ⟨2024, 1, 1⟩⟩ =
      ⟨50, some ⟨2024, 1, 1⟩⟩ ∧
    collectionLoopIter ⟨2024, 1, 2⟩ ⟨50, some ⟨2024, 1, 1⟩⟩ =
      (⟨1, some ⟨2024, 1, 2⟩⟩, true) := by
  have h1 := (c8_daily_cap ⟨2024, 1, 1⟩ ⟨50, some ⟨2024, 1, 1⟩⟩).1 rfl
    (by decide)
  have h2 := (c8_daily_cap ⟨2024, 1, 2⟩ ⟨50, some ⟨2024, 1, 1⟩⟩).2
    (by decide)
  exact ⟨h1.1, h1.2 3, h2⟩

/-! ## Claim C9 -/

/-- Claim C9 fails on the code: `last_group_check[group_id] = datetime.now()`
sits inside the per-group `try`, after the fetch — so when the fetch
for a target raises, the `except` branch skips the update and the
target's last-checked timestamp is **not** refreshed.  Concretely, a
pass over one group whose fetch fails leaves the engine state (including
`last_group_check`) exactly as it was. -/
theorem c9_counterexample :
    collectFromAllGroups (fun b => [b]) (fun _ => none)
      ⟨2024, 1, 1, 12, 0, 0⟩ [⟨"g1", "Group One"⟩]
      ⟨[], [], true, [], 0⟩ = ⟨[], [], true, [], 0⟩ ∧
    (collectFromAllGroups (fun b => [b]) (fun _ => none)
      ⟨2024, 1, 1, 12, 0, 0⟩ [⟨"g1", "Group One"⟩]
      ⟨[], [], true, [], 0⟩).lastGroupCheck.lookup "g1" = none :=
  ⟨rfl, rfl⟩

/-- Claim C9 amended: During a collection pass, a successfully processed
target gets its last-checked timestamp set, and a per-target error is
caught and isolated — the loop continues and later targets are still
processed — but the failed target's last-checked timestamp is not
updated. -/
theorem c9_per_target (extract : String → List String) (now : DateTime)
    (gBad gGood : Group) (msgs : List Message) (st : EngineState)
    (fetch : String → Option (List Message))
    (hne : (gBad.gid == gGood.gid) = false)
    (hb : fetch gBad.gid = none) (hg : fetch gGood.gid = some msgs)
    (hchk : st.lastGroupCheck = []) :
    (collectFromAllGroups extract fetch now [gBad, gGood]
      st).lastGroupCheck.lookup gBad.gid = none ∧
    (collectFromAllGroups extract fetch now [gBad, gGood]
      st).lastGroupCheck.lookup gGood.gid = some now := by
  have hmain : (collectFromAllGroups extract fetch now [gBad, gGood]
      st).lastGroupCheck = [(gGood.gid, now)] := by
    unfold collectFromAllGroups
    rw [if_neg (by simp)]
    simp only [List.foldl]
    unfold processGroup
    simp only [hchk, List.lookup, hb, hg]
    unfold upsertCheck
    simp [hchk, List.lookup]
  rw [hmain]
  constructor
  · simp [List.lookup, hne]
  · simp [List.lookup]

/-- Witness for the amended C9: group `g1`'s fetch raises and its
timestamp stays absent; group `g2` is still processed and stamped. -/
theorem c9_per_target_witness :
    (collectFromAllGroups (fun b => [b])
      (fun gid => if gid = "g2"
        then some [⟨"http://a.example/1", "m1", "alice"⟩] else none)
      ⟨2024, 1, 1, 12, 0, 0⟩ [⟨"g1", "A"⟩, ⟨"g2", "B"⟩]
      ⟨[], [], true, [], 0⟩).lastGroupCheck.lookup "g1" = none ∧
    (collectFromAllGroups (fun b => [b])
      (fun gid => if gid = "g2"
        then some [⟨"http://a.example/1", "m1", "alice"⟩] else none)
      ⟨2024, 1, 1, 12, 0, 0⟩ [⟨"g1", "A"⟩, ⟨"g2", "B"⟩]
      ⟨[], [], true, [], 0⟩).lastGroupCheck.lookup "g2" =
      some ⟨2024, 1, 1, 12, 0, 0⟩ :=
  c9_per_target (fun b => [b]) ⟨2024, 1, 1, 12, 0, 0⟩
    ⟨"g1", "A"⟩ ⟨"g2", "B"⟩ [⟨"http://a.example/1", "m1", "alice"⟩]
    ⟨[], [], true, [], 0⟩
    (fun gid => if gid = "g2"
      then some [⟨"http://a.example/1", "m1", "alice"⟩] else none)
    (by decide) rfl rfl rfl

/-! ## Claim C10 -/

/-- Claim C10: The success-rate statistics are well-defined with no runs:
both the per-task rate of `get_tasks` and the aggregate rate of
`get_scheduler_stats` return 0 when the relevant `total_runs` is 0, and
when `total_runs` is positive the rate is the genuine quotient
`success_count / total_runs * 100` — no division by zero occurs. -/
theorem c10_success_rate_guard (t : ScheduledTask) (tasks : TaskRegistry) :
    (t.totalRuns = 0 → taskSuccessRate t = 0) ∧
    (totalRunsOf tasks = 0 → schedulerSuccessRate tasks = 0) ∧
    (0 < t.totalRuns →
      taskSuccessRate t * (t.totalRuns : ℚ) = (t.successCount : ℚ) * 100) := by
  refine ⟨fun h => ?_, fun h => ?_, fun h => ?_⟩
  · unfold taskSuccessRate
    rw [h]
    simp
  · unfold schedulerSuccessRate
    rw [h]
    simp
  · unfold taskSuccessRate
    rw [if_pos h]
    have htr : (t.totalRuns : ℚ) ≠ 0 := Nat.cast_ne_zero.mpr (by omega)
    field_simp

/-- Witness for C10 at a zero-run task, the empty registry, and a task
with four runs and three successes. -/
theorem c10_success_rate_guard_witness :
    taskSuccessRate sampleTask = 0 ∧
    schedulerSuccessRate [] = 0 ∧
    taskSuccessRate { sampleTask with totalRuns := 4, successCount := 3 } *
      (({ sampleTask with totalRuns := 4, successCount := 3 } :
        ScheduledTask).totalRuns : ℚ) =
      (({ sampleTask with totalRuns := 4, successCount := 3 } :
        ScheduledTask).successCount : ℚ) * 100 :=
  ⟨(c10_success_rate_guard sampleTask []).1 rfl,
   (c10_success_rate_guard sampleTask []).2.1 rfl,
   (c10_success_rate_guard
     { sampleTask with totalRuns := 4, successCount := 3 } []).2.2
     (by decide)⟩

end Companion
